import Mathlib

/-!
Verification of the Fortran compiler wrapper (`src/lib/compilers/fortran.ts`).

The file embeds the argument-resolution functions of `FortranCompiler`
(`getExactStaticLibNameAndPath`, `getStaticLibraryLinks`,
`getSharedLibraryPaths`, `getIncludeArguments`,
`getSharedLibraryPathsAsArguments`) and the invocation wrapper
(`runCompiler`) as executable Lean definitions, together with models of the
JavaScript and Node primitives they use (`||` on strings, `_.union`,
`Array.prototype.flat`, `path.join`, `path.dirname`, `path.basename`).
External collaborators (the library version registry `findLibVersion`, the
filesystem existence check `fs.existsSync`, the process execution primitive
`exec`) are abstract parameters, packaged in an environment structure.
-/

namespace FortranSpec

/-! ## JavaScript string primitives -/

/-- JavaScript `a || b` for strings: the empty string is falsy. -/
def jsOr (s d : String) : String := if s = "" then d else s

/-! ## Underscore `_.uniq` / `_.union`

`_.union(arrays...)` is `uniq(flatten(arrays))`: the unique items, in order
of first occurrence, present in one or more of the arrays.  `uniq` walks the
list keeping an element exactly when it has not been seen before. -/

/-- Underscore's `uniq` loop: `seen` holds the elements already emitted. -/
def uniqAux (seen : List String) : List String → List String
  | [] => []
  | x :: xs => if x ∈ seen then uniqAux seen xs else x :: uniqAux (x :: seen) xs

/-- Underscore's `_.uniq`: first occurrence of each element is kept. -/
def uniq (l : List String) : List String := uniqAux [] l

/-- Underscore's `_.union`: `uniq` of the concatenation of the arrays. -/
def union (ls : List (List String)) : List String := uniq ls.flatten

/-- The spec's formulation of the deduplication rule ("an insertion-ordered
mapping from formatted-argument-string to presence, iterated in insertion
order"): fold left, appending an element only when it is not yet present. -/
def orderedInsertDedup (l : List String) : List String :=
  l.foldl (fun acc x => if x ∈ acc then acc else acc ++ [x]) []

/-! ## Node `path` primitives (modelled for POSIX paths) -/

/-- Index of the last `'/'` in a character list, if any. -/
def lastSlash : List Char → Option Nat
  | [] => none
  | c :: cs =>
    match lastSlash cs with
    | some i => some (i + 1)
    | none => if c = '/' then some 0 else none

/-- Node `path.dirname` for POSIX paths: everything before the last slash
(`"."` when there is no slash, `"/"` when the only slash is leading). -/
def dirname (p : String) : String :=
  match lastSlash p.data with
  | none => "."
  | some 0 => "/"
  | some i => String.mk (p.data.take i)

/-- Node `path.basename` for POSIX paths: everything after the last slash. -/
def basename (p : String) : String :=
  match lastSlash p.data with
  | none => p
  | some i => String.mk (p.data.drop (i + 1))

/-- Drop leading `'/'` characters. -/
def dropLeadingSlashes (l : List Char) : List Char := l.dropWhile (fun c => c = '/')

/-- Drop trailing `'/'` characters. -/
def dropTrailingSlashes (l : List Char) : List Char :=
  (l.reverse.dropWhile (fun c => c = '/')).reverse

/-- Node `path.join` on two segments: empty segments are ignored, and the
segments are glued with exactly one `'/'` between them. -/
def pathJoin (a b : String) : String :=
  if a = "" then b
  else if b = "" then a
  else String.mk (dropTrailingSlashes a.data ++ '/' :: dropLeadingSlashes b.data)

/-- Node `path.join` on three segments. -/
def pathJoin3 (a b c : String) : String := pathJoin (pathJoin a b) c

/-! ## String replacement (all occurrences)

Structural-recursion (fuel-indexed) replacement of every occurrence of a
non-empty pattern, scanning left to right. -/

/-- Fuel-indexed worker: at each step either the pattern matches at the head
(emit the replacement and skip the match) or one character is copied. -/
def replaceAllFuel : Nat → List Char → List Char → List Char → List Char
  | 0, s, _, _ => s
  | _ + 1, [], _, _ => []
  | fuel + 1, c :: cs, pat, rep =>
    if pat.isPrefixOf (c :: cs) then rep ++ replaceAllFuel fuel ((c :: cs).drop pat.length) pat rep
    else c :: replaceAllFuel fuel cs pat rep

/-- Replace every occurrence of `pat` in `s` by `rep` (left-to-right,
non-overlapping); the empty pattern replaces nothing. -/
def replaceAll (s pat rep : String) : String :=
  if pat = "" then s else String.mk (replaceAllFuel s.data.length s.data pat.data rep.data)

/-! ## Data model -/

/-- A requested dependency (`CompileChildLibraries` / `SelectedLibraryVersion`
shape as used by the functions: an id and a version). -/
structure CompileChildLibrary where
  id : String
  version : String
deriving DecidableEq

/-- Resolved version metadata, with the field names the source reads:
`path` (include paths), `libpath` (library paths), `packagedheaders`, and
`staticliblink` (static link names declared by the metadata). -/
structure VersionInfo where
  path : List String
  libpath : List String
  packagedheaders : Bool
  staticliblink : List String
deriving DecidableEq

/-- The build-environment setup object, when present. -/
structure BuildEnvSetup where
  extractAllToRoot : Bool
deriving DecidableEq

/-- The toolchain configuration fields the source reads from
`this.compiler`; an empty string models an omitted flag (JS falsy). -/
structure CompilerInfo where
  includeFlag : String
  rpathFlag : String
  libpathFlag : String
  libPath : List String
deriving DecidableEq

/-- Execution options for the child process. -/
structure ExecutionOptions where
  env : List (String × String)
  customCwd : Option String
deriving DecidableEq

/-- Result of the external execution primitive. -/
structure ExecResult where
  code : Int
  stdout : String
  stderr : String
deriving DecidableEq

/-- The compilation outcome returned by `runCompiler`. -/
structure CompilationResult where
  code : Int
  stdout : String
  stderr : String
  inputFilename : String
deriving DecidableEq

/-- The environment of a `FortranCompiler` instance: the toolchain
configuration, the base-class default rpath flag, the optional
build-environment setup, and the external collaborators — the library
version registry (`findLibVersion`, external per spec §2) and the
filesystem existence check (`fs.existsSync`). -/
structure Env where
  compiler : CompilerInfo
  defaultRpathFlag : String
  buildenvsetup : Option BuildEnvSetup
  findLibVersion : CompileChildLibrary → Option VersionInfo
  existsSync : String → Bool
  getDefaultExecOptions : ExecutionOptions

/-! ## getExactStaticLibNameAndPath -/

/-- The `for (const dir of libPaths)` loop of `getExactStaticLibNameAndPath`:
return the first `path.join(dir, libFilename)` that exists, else `""`. -/
def findStaticLib (env : Env) (libFilename : String) : List String → String
  | [] => ""
  | dir :: rest =>
    let testpath := pathJoin dir libFilename
    if env.existsSync testpath then testpath else findStaticLib env libFilename rest

/-- `getExactStaticLibNameAndPath(lib, libPaths)`: probes the directories in
order for `lib<name>.a` and returns the first existing joined path, or `""`. -/
def getExactStaticLibNameAndPath (env : Env) (lib : String) (libPaths : List String) : String :=
  findStaticLib env ("lib" ++ lib ++ ".a") libPaths

/-! ## getStaticLibraryLinks -/

/-- Modelled from the spec: `getSortedStaticLibraries` lives in
`BaseCompiler` (`src/lib/base-compiler.ts`), which is not under `src/`.
Per spec §3 ("for any SelectedLibrary whose version cannot be resolved, it
contributes zero entries to every derived argument list") and §4.2 ("order
the SelectedLibrary list by a caller-supplied dependency order (stable sort
key defined by library metadata)"), each resolved library contributes the
static link names declared by its metadata and an unresolved library
contributes nothing; the caller-supplied dependency order is modelled as
input order. -/
def getSortedStaticLibraries (env : Env) (libraries : List CompileChildLibrary) : List String :=
  libraries.flatMap fun l =>
    match env.findLibVersion l with
    | none => []
    | some v => v.staticliblink

/-- `getStaticLibraryLinks(libraries, libPaths)`: sorted static library
names, falsy names filtered out, each mapped to its exact archive path. -/
def getStaticLibraryLinks (env : Env) (libraries : List CompileChildLibrary)
    (libPaths : List String) : List String :=
  ((getSortedStaticLibraries env libraries).filter (fun lib => lib ≠ "")).map
    (fun lib => getExactStaticLibNameAndPath env lib libPaths)

/-! ## getSharedLibraryPaths

The source maps each library to either `false` (version not resolved) or an
array of paths, then calls `Array.prototype.flat()`.  `flat` spreads nested
arrays but keeps non-array elements, so a `false` element survives into the
result (the `as string[]` cast notwithstanding).  Elements are therefore
modelled as `Sum String Bool`: `.inl` a string, `.inr` a boolean. -/

/-- The body of the `map` in `getSharedLibraryPaths`: `false` when the
version is unresolved, otherwise the library's `libpath` entries plus — when
a build-environment setup exists, it does not extract all to root, and a
download directory is given (JS-truthy) — the synthesized
`join(dirPath, id, 'lib')`. -/
def sharedPathsEntryFor (env : Env) (dirPath : String) (selectedLib : CompileChildLibrary) :
    Sum (List String) Bool :=
  match env.findLibVersion selectedLib with
  | none => Sum.inr false
  | some foundVersion =>
    let paths := foundVersion.libpath
    match env.buildenvsetup with
    | some b =>
      if b.extractAllToRoot = false ∧ dirPath ≠ "" then
        Sum.inl (paths ++ [pathJoin3 dirPath selectedLib.id "lib"])
      else Sum.inl paths
    | none => Sum.inl paths

/-- JavaScript `Array.prototype.flat()` (depth 1) over an array whose
elements are either arrays of strings or booleans: arrays are spread,
booleans are kept. -/
def jsFlat : List (Sum (List String) Bool) → List (Sum String Bool)
  | [] => []
  | Sum.inl xs :: rest => xs.map Sum.inl ++ jsFlat rest
  | Sum.inr b :: rest => Sum.inr b :: jsFlat rest

/-- `getSharedLibraryPaths(libraries, dirPath)`. -/
def getSharedLibraryPaths (env : Env) (libraries : List CompileChildLibrary)
    (dirPath : String) : List (Sum String Bool) :=
  jsFlat (libraries.map (sharedPathsEntryFor env dirPath))

/-- JavaScript string conversion of an array element used in
`flag + path`: a boolean coerces to `"true"` / `"false"`. -/
def jsToString : Sum String Bool → String
  | Sum.inl s => s
  | Sum.inr true => "true"
  | Sum.inr false => "false"

/-- JavaScript `flag + path` on a possibly-boolean element. -/
def jsAppendFlag (flag : String) (v : Sum String Bool) : String := flag ++ jsToString v

/-! ## getIncludeArguments -/

/-- The body of the `flatMap` in `getIncludeArguments`: nothing when the
version is unresolved; otherwise the include flag applied to each metadata
include path, plus — when `packagedheaders` — a literal `-I` on
`join(dirPath, id, 'mod')` and the include flag on
`join(dirPath, id, 'include')`. -/
def includeArgsFor (env : Env) (dirPath : String) (selectedLib : CompileChildLibrary) :
    List String :=
  let includeFlag := jsOr env.compiler.includeFlag "-I"
  match env.findLibVersion selectedLib with
  | none => []
  | some foundVersion =>
    let paths := foundVersion.path.map (fun p => includeFlag ++ p)
    if foundVersion.packagedheaders then
      paths ++ ["-I" ++ pathJoin3 dirPath selectedLib.id "mod",
        includeFlag ++ pathJoin3 dirPath selectedLib.id "include"]
    else paths

/-- `getIncludeArguments(libraries, dirPath)`. -/
def getIncludeArguments (env : Env) (libraries : List CompileChildLibrary)
    (dirPath : String) : List String :=
  libraries.flatMap (includeArgsFor env dirPath)

/-! ## getSharedLibraryPathsAsArguments -/

/-- `getSharedLibraryPathsAsArguments(libraries, libDownloadPath,
toolchainPath, dirPath)`: the underscore union of the six groups, in source
order. -/
def getSharedLibraryPathsAsArguments (env : Env) (libraries : List CompileChildLibrary)
    (libDownloadPath toolchainPath dirPath : String) : List String :=
  let pathFlag := jsOr env.compiler.rpathFlag env.defaultRpathFlag
  let libPathFlag := jsOr env.compiler.libpathFlag "-L"
  let toolchainLibraryPaths : List String :=
    if toolchainPath ≠ "" then [pathJoin toolchainPath "/lib64", pathJoin toolchainPath "/lib32"]
    else []
  let libDownloadPath := jsOr libDownloadPath "./lib"
  union
    [[libPathFlag ++ libDownloadPath],
      [pathFlag ++ libDownloadPath],
      env.compiler.libPath.map (fun p => pathFlag ++ p),
      toolchainLibraryPaths.map (fun p => pathFlag ++ p),
      (getSharedLibraryPaths env libraries dirPath).map (jsAppendFlag pathFlag),
      (getSharedLibraryPaths env libraries dirPath).map (jsAppendFlag libPathFlag)]

/-! ## runCompiler -/

/-- Modelled from the spec: `utils.parseOutput` lives in `src/lib/utils.ts`,
which is not under `src/`.  Per spec §4.3, it rewrites "any textual
occurrence of the absolute input file path ... to a canonical relative form
(`./` + base filename)"; the call site precomputes that relative form.  We
model it as replacement of every occurrence of the absolute input path by
`"./" ++ basename`. -/
def parseOutput (text : String) (inputFilename : String) : String :=
  replaceAll text inputFilename ("./" ++ basename inputFilename)

/-- The arguments `runCompiler` hands to the execution primitive. -/
structure SpawnRecord where
  compiler : String
  options : List String
  execOptions : ExecutionOptions
deriving DecidableEq

/-- The execution options actually used: the given options (or the default
options when none are given) with `customCwd` overridden to the directory
containing the input file. -/
def spawnOptions (env : Env) (execOptions : Option ExecutionOptions)
    (inputFilename : String) : ExecutionOptions :=
  let execOptions := execOptions.getD env.getDefaultExecOptions
  { execOptions with customCwd := some (dirname inputFilename) }

/-- The spawn record `runCompiler` passes to `exec`. -/
def spawnOf (env : Env) (compiler : String) (options : List String)
    (inputFilename : String) (execOptions : Option ExecutionOptions) : SpawnRecord :=
  ⟨compiler, options, spawnOptions env execOptions inputFilename⟩

/-- The return-object construction of `runCompiler`: spread of the raw exec
result with `stdout` / `stderr` rewritten against the input path and
`inputFilename` set. -/
def processResult (result : ExecResult) (inputFilename : String) : CompilationResult :=
  { code := result.code
    stdout := parseOutput result.stdout inputFilename
    stderr := parseOutput result.stderr inputFilename
    inputFilename := inputFilename }

/-- `runCompiler(compiler, options, inputFilename, execOptions)`, with the
execution primitive `this.exec` as an explicit function argument. -/
def runCompiler (env : Env) (execFn : SpawnRecord → ExecResult) (compiler : String)
    (options : List String) (inputFilename : String)
    (execOptions : Option ExecutionOptions) : CompilationResult :=
  processResult (execFn (spawnOf env compiler options inputFilename execOptions)) inputFilename

/-! ## Lemmas about `uniq` / `union` -/

theorem uniqAux_sublist (l : List String) : ∀ seen, (uniqAux seen l).Sublist l := by
  induction l with
  | nil => intro seen; simp [uniqAux]
  | cons x xs ih =>
    intro seen
    rw [uniqAux]
    by_cases hx : x ∈ seen
    · simp only [if_pos hx]
      exact (ih seen).cons x
    · simp only [if_neg hx]
      exact (ih (x :: seen)).cons₂ x

theorem mem_uniqAux (a : String) (l : List String) :
    ∀ seen, a ∈ uniqAux seen l ↔ a ∈ l ∧ a ∉ seen := by
  induction l with
  | nil => intro seen; simp [uniqAux]
  | cons x xs ih =>
    intro seen
    rw [uniqAux]
    by_cases hx : x ∈ seen
    · simp only [if_pos hx, ih seen, List.mem_cons]
      constructor
      · rintro ⟨ha, hns⟩; exact ⟨Or.inr ha, hns⟩
      · rintro ⟨ha | ha, hns⟩
        · exact absurd (ha ▸ hx) hns
        · exact ⟨ha, hns⟩
    · simp only [if_neg hx, List.mem_cons, ih (x :: seen), not_or]
      constructor
      · rintro (rfl | ⟨ha, hax, has⟩)
        · exact ⟨Or.inl rfl, hx⟩
        · exact ⟨Or.inr ha, has⟩
      · rintro ⟨rfl | ha, hns⟩
        · exact Or.inl rfl
        · rcases eq_or_ne a x with rfl | hax
          · exact Or.inl rfl
          · exact Or.inr ⟨ha, hax, hns⟩

theorem nodup_uniqAux (l : List String) : ∀ seen, (uniqAux seen l).Nodup := by
  induction l with
  | nil => intro seen; simp [uniqAux]
  | cons x xs ih =>
    intro seen
    rw [uniqAux]
    by_cases hx : x ∈ seen
    · simpa [hx] using ih seen
    · simp only [if_neg hx, List.nodup_cons]
      refine ⟨fun hc => ?_, ih (x :: seen)⟩
      exact ((mem_uniqAux x xs (x :: seen)).mp hc).2 (List.mem_cons_self x seen)

theorem uniq_sublist (l : List String) : (uniq l).Sublist l := uniqAux_sublist l []

theorem nodup_uniq (l : List String) : (uniq l).Nodup := nodup_uniqAux l []

theorem mem_uniq (a : String) (l : List String) : a ∈ uniq l ↔ a ∈ l := by
  simp [uniq, mem_uniqAux]

theorem foldl_insert_eq_uniqAux (l : List String) :
    ∀ acc seen, (∀ x, x ∈ acc ↔ x ∈ seen) →
      l.foldl (fun acc x => if x ∈ acc then acc else acc ++ [x]) acc = acc ++ uniqAux seen l := by
  induction l with
  | nil => intro acc seen _; simp [uniqAux]
  | cons x xs ih =>
    intro acc seen hiff
    rw [List.foldl_cons, uniqAux]
    by_cases hx : x ∈ seen
    · rw [if_pos ((hiff x).mpr hx), if_pos hx]
      exact ih acc seen hiff
    · rw [if_neg (fun hc => hx ((hiff x).mp hc)), if_neg hx]
      rw [ih (acc ++ [x]) (x :: seen) (fun y => by
        simp only [List.mem_append, List.mem_singleton, List.mem_cons, hiff y]
        tauto)]
      simp

theorem orderedInsertDedup_eq_uniq (l : List String) : orderedInsertDedup l = uniq l := by
  have h := foldl_insert_eq_uniqAux l [] [] (fun x => by simp)
  simpa [orderedInsertDedup, uniq] using h

/-! ## Lemmas about `jsFlat` -/

theorem jsFlat_append (a b : List (Sum (List String) Bool)) :
    jsFlat (a ++ b) = jsFlat a ++ jsFlat b := by
  induction a with
  | nil => simp [jsFlat]
  | cons x xs ih =>
    cases x with
    | inl v => simp [jsFlat, ih]
    | inr v => simp [jsFlat, ih]

/-! ## Lemmas about `findStaticLib` -/

theorem findStaticLib_empty_of_none_exists (env : Env) (fn : String) :
    ∀ dirs, (∀ d ∈ dirs, env.existsSync (pathJoin d fn) = false) →
      findStaticLib env fn dirs = "" := by
  intro dirs
  induction dirs with
  | nil => intro _; rfl
  | cons d rest ih =>
    intro h
    rw [findStaticLib]
    simp only [h d (List.mem_cons_self d rest), Bool.false_eq_true, if_false]
    exact ih fun d' hd' => h d' (List.mem_cons_of_mem d hd')

theorem findStaticLib_first_hit (env : Env) (fn : String) :
    ∀ dirs (i : Nat), i < dirs.length →
      env.existsSync (pathJoin (dirs.getD i "") fn) = true →
      (∀ j : Nat, j < i → env.existsSync (pathJoin (dirs.getD j "") fn) = false) →
      findStaticLib env fn dirs = pathJoin (dirs.getD i "") fn := by
  intro dirs
  induction dirs with
  | nil => intro i hi; exact absurd hi (by simp)
  | cons d rest ih =>
    intro i hi hex hbefore
    rw [findStaticLib]
    match i with
    | 0 => simp only [List.getD_cons_zero] at hex ⊢; simp [hex]
    | i + 1 =>
      have h0 : env.existsSync (pathJoin d fn) = false := by
        simpa using hbefore 0 (Nat.succ_pos i)
      simp only [h0, Bool.false_eq_true, if_false]
      simp only [List.getD_cons_succ] at hex ⊢
      exact ih i (Nat.lt_of_succ_lt_succ hi) hex
        (fun j hj => by simpa using hbefore (j + 1) (Nat.succ_lt_succ hj))

theorem findStaticLib_empty_or_exists (env : Env) (fn : String) :
    ∀ dirs, findStaticLib env fn dirs = "" ∨
      env.existsSync (findStaticLib env fn dirs) = true := by
  intro dirs
  induction dirs with
  | nil => exact Or.inl rfl
  | cons d rest ih =>
    rw [findStaticLib]
    by_cases h : env.existsSync (pathJoin d fn) = true
    · simp only [h, if_true]
      exact Or.inr trivial
    · simp only [h, if_false]
      exact ih

/-! ## Concrete instances used to evaluate the code -/

/-- A toolchain configuration with every optional flag omitted. -/
def defaultCompilerInfo : CompilerInfo :=
  { includeFlag := "", rpathFlag := "", libpathFlag := "", libPath := ["/usr/lib"] }

/-- An environment in which no library version resolves and no file exists. -/
def envUnresolved : Env :=
  { compiler := defaultCompilerInfo
    defaultRpathFlag := "-Wl,-rpath,"
    buildenvsetup := none
    findLibVersion := fun _ => none
    existsSync := fun _ => false
    getDefaultExecOptions := { env := [], customCwd := none } }

/-- A concrete selected library. -/
def libX : CompileChildLibrary := ⟨"mylib", "1.0"⟩

/-- Metadata that declares one static link name and nothing else. -/
def vStaticOnly : VersionInfo := ⟨[], [], false, ["foo"]⟩

/-- Every version resolves to `vStaticOnly`; no file exists on disk. -/
def envStaticUnfound : Env :=
  { envUnresolved with findLibVersion := fun _ => some vStaticOnly }

/-- Every version resolves to `vStaticOnly`; exactly
`/opt/libs/libfoo.a` exists on disk. -/
def envStaticFound : Env :=
  { envStaticUnfound with existsSync := fun p => p = "/opt/libs/libfoo.a" }

/-- No version resolves; exactly `B/liblapack.a` exists on disk. -/
def envArchiveInB : Env :=
  { envUnresolved with existsSync := fun p => p = "B/liblapack.a" }

/-! ## Claims -/

/-- **C1.** The claim says a `SelectedLibrary` whose version metadata cannot
be resolved contributes zero entries to all three derived argument lists.
At a concrete unresolvable library the include-argument list and the
static-link list are indeed empty, but `getSharedLibraryPaths` keeps one
entry for the library: the JavaScript boolean `false` returned by the `map`
callback survives `Array.prototype.flat()` (which only spreads arrays), and
downstream string coercion renders it as the argument tokens
`-Wl,-rpath,false` and `-Lfalse` in `getSharedLibraryPathsAsArguments` —
contradicting the claim (and the function's own `string[]` return type) for
the shared-library-path list. -/
theorem c1_unresolved_library_contributes_false_entry :
    getIncludeArguments envUnresolved [libX] "/app/dl" = [] ∧
    getStaticLibraryLinks envUnresolved [libX] ["/usr/lib"] = [] ∧
    getSharedLibraryPaths envUnresolved [libX] "/app/dl" = [Sum.inr false] ∧
    getSharedLibraryPaths envUnresolved [libX] "/app/dl" ≠ [] ∧
    "-Wl,-rpath,false" ∈ getSharedLibraryPathsAsArguments envUnresolved [libX] "" "" "/app/dl" ∧
    "-Lfalse" ∈ getSharedLibraryPathsAsArguments envUnresolved [libX] "" "" "/app/dl" := by
  refine ⟨rfl, rfl, rfl, ?_, ?_, ?_⟩ <;> decide

/-- **C2 counterexample.** The claim says a library whose archive is found
in no search directory is excluded from the static-link vector.  In the
source, `.filter(lib => lib)` runs on the library *names* before the
`.map` to resolved paths, so the unresolved library's empty-string
resolution is emitted: with one library whose archive exists nowhere the
result is `[""]`, not `[]`. -/
theorem c2_counterexample_empty_resolution_emitted :
    getStaticLibraryLinks envStaticUnfound [libX] ["/usr/lib"] = [""] ∧
    getStaticLibraryLinks envStaticUnfound [libX] ["/usr/lib"] ≠ [] := by
  exact ⟨rfl, by decide⟩

/-- **C2 (amended).** Every entry of the static-link vector is either the
path of an archive that exists on the filesystem, or the empty string — the
empty-string resolution of a library found in no search directory is
emitted into the vector, not dropped (only empty/falsy library *names* are
filtered out, before resolution). -/
theorem c2_amended_static_links_exist_or_empty (env : Env)
    (libraries : List CompileChildLibrary) (libPaths : List String) (s : String)
    (hs : s ∈ getStaticLibraryLinks env libraries libPaths) :
    s = "" ∨ env.existsSync s = true := by
  rw [getStaticLibraryLinks] at hs
  obtain ⟨lib, -, rfl⟩ := List.mem_map.mp hs
  exact findStaticLib_empty_or_exists env ("lib" ++ lib ++ ".a") libPaths

/-- Witness for C2 (amended) at a concrete input: the single entry of the
static-link vector for `envStaticFound` is `/opt/libs/libfoo.a`, and the
amended theorem applied there yields the disjunction. -/
theorem c2_amended_static_links_exist_or_empty_witness :
    "/opt/libs/libfoo.a" = "" ∨ envStaticFound.existsSync "/opt/libs/libfoo.a" = true :=
  c2_amended_static_links_exist_or_empty envStaticFound [libX] ["/opt/libs"]
    "/opt/libs/libfoo.a" (by decide)

/-- **C4.** `getExactStaticLibNameAndPath` returns `path.join(dir,
"lib" ++ name ++ ".a")` for the first directory `dir` (in list order) whose
joined path exists on the filesystem, and returns the empty string when no
listed directory contains the file (a normal value, not an error: the
function is total). -/
theorem c4_exact_static_lib_first_or_empty (env : Env) (lib : String)
    (libPaths : List String) :
    ((∀ d ∈ libPaths, env.existsSync (pathJoin d ("lib" ++ lib ++ ".a")) = false) →
      getExactStaticLibNameAndPath env lib libPaths = "") ∧
    (∀ i : Nat, i < libPaths.length →
      env.existsSync (pathJoin (libPaths.getD i "") ("lib" ++ lib ++ ".a")) = true →
      (∀ j : Nat, j < i →
        env.existsSync (pathJoin (libPaths.getD j "") ("lib" ++ lib ++ ".a")) = false) →
      getExactStaticLibNameAndPath env lib libPaths =
        pathJoin (libPaths.getD i "") ("lib" ++ lib ++ ".a")) := by
  constructor
  · exact findStaticLib_empty_of_none_exists env ("lib" ++ lib ++ ".a") libPaths
  · exact fun i hi hex hb => findStaticLib_first_hit env ("lib" ++ lib ++ ".a") libPaths i hi hex hb

/-- Witness for C4 at concrete inputs: with `liblapack.a` present only under
`B`, probing `[A, B]` returns `B/liblapack.a`; with nothing on disk the
probe returns the empty string. -/
theorem c4_exact_static_lib_first_or_empty_witness :
    getExactStaticLibNameAndPath envUnresolved "lapack" ["A", "B"] = "" ∧
    getExactStaticLibNameAndPath envArchiveInB "lapack" ["A", "B"] =
      pathJoin (["A", "B"].getD 1 "") ("lib" ++ "lapack" ++ ".a") :=
  ⟨(c4_exact_static_lib_first_or_empty envUnresolved "lapack" ["A", "B"]).1 (by decide),
    (c4_exact_static_lib_first_or_empty envArchiveInB "lapack" ["A", "B"]).2 1
      (by decide) (by decide) (by decide)⟩

/-! ## The six argument groups of `getSharedLibraryPathsAsArguments` -/

/-- The concatenation, in source order, of the six argument groups whose
union `getSharedLibraryPathsAsArguments` returns: library-search-path flag
on the download root; runtime-path flag on the download root; runtime-path
flag on each toolchain-global library path; runtime-path flag on
`<toolchainPath>/lib64` and `/lib32` when a toolchain root is given;
runtime-path flag on each resolved shared-library path; library-search-path
flag on those same paths. -/
def sharedLibraryPathGroups (env : Env) (libraries : List CompileChildLibrary)
    (libDownloadPath toolchainPath dirPath : String) : List String :=
  let pathFlag := jsOr env.compiler.rpathFlag env.defaultRpathFlag
  let libPathFlag := jsOr env.compiler.libpathFlag "-L"
  let toolchainLibraryPaths : List String :=
    if toolchainPath ≠ "" then [pathJoin toolchainPath "/lib64", pathJoin toolchainPath "/lib32"]
    else []
  let libDownloadPath := jsOr libDownloadPath "./lib"
  [libPathFlag ++ libDownloadPath] ++ [pathFlag ++ libDownloadPath] ++
    env.compiler.libPath.map (fun p => pathFlag ++ p) ++
    toolchainLibraryPaths.map (fun p => pathFlag ++ p) ++
    (getSharedLibraryPaths env libraries dirPath).map (jsAppendFlag pathFlag) ++
    (getSharedLibraryPaths env libraries dirPath).map (jsAppendFlag libPathFlag)

theorem getSharedLibraryPathsAsArguments_eq_uniq_groups (env : Env)
    (libraries : List CompileChildLibrary) (libDownloadPath toolchainPath dirPath : String) :
    getSharedLibraryPathsAsArguments env libraries libDownloadPath toolchainPath dirPath =
      uniq (sharedLibraryPathGroups env libraries libDownloadPath toolchainPath dirPath) := by
  rw [getSharedLibraryPathsAsArguments, union, sharedLibraryPathGroups]
  simp only [List.flatten, List.append_assoc, List.append_nil]

/-- **C3.** The shared/runtime path argument vector is the set-union of the
six listed groups in source order: it equals the order-preserving
first-occurrence deduplication (the spec's insertion-ordered-set
formulation) of the concatenation of the six groups, it contains no
duplicate string (so every flag+path string shared between overlapping
`libPaths` appears exactly once), it is an order-preserving subsequence of
the concatenation (first occurrences keep their relative order and
position), and it contains exactly the strings of the six groups. -/
theorem c3_shared_args_union_dedup (env : Env) (libraries : List CompileChildLibrary)
    (libDownloadPath toolchainPath dirPath : String) :
    getSharedLibraryPathsAsArguments env libraries libDownloadPath toolchainPath dirPath =
      orderedInsertDedup
        (sharedLibraryPathGroups env libraries libDownloadPath toolchainPath dirPath) ∧
    (getSharedLibraryPathsAsArguments env libraries libDownloadPath toolchainPath dirPath).Nodup ∧
    (getSharedLibraryPathsAsArguments env libraries libDownloadPath toolchainPath
        dirPath).Sublist
      (sharedLibraryPathGroups env libraries libDownloadPath toolchainPath dirPath) ∧
    ∀ s, s ∈ getSharedLibraryPathsAsArguments env libraries libDownloadPath toolchainPath
        dirPath ↔
      s ∈ sharedLibraryPathGroups env libraries libDownloadPath toolchainPath dirPath := by
  rw [getSharedLibraryPathsAsArguments_eq_uniq_groups, orderedInsertDedup_eq_uniq]
  exact ⟨rfl, nodup_uniq _, uniq_sublist _, fun s => mem_uniq s _⟩

/-- Right cancellation for string concatenation. -/
theorem string_append_right_cancel {x y s : String} (h : x ++ s = y ++ s) : x = y := by
  have hd := congrArg String.data h
  simp only [String.data_append] at hd
  exact String.ext (List.append_cancel_right hd)

/-- A toolchain configuration whose explicit rpath flag collides with the
default library-search-path flag `-L`. -/
def envRpathCollides : Env :=
  { envUnresolved with
    compiler := { includeFlag := "", rpathFlag := "-L", libpathFlag := "", libPath := [] } }

/-- **C10 counterexample.** The claim says that with an empty download-root
path the first two entries of the vector are the library-search-path flag
and the runtime-path flag each applied to `./lib`.  When the two resolved
flags coincide (rpath flag configured as `-L`), the union deduplicates the
second entry: with no libraries the whole vector is the single entry
`-L./lib`, so there is no second entry at all. -/
theorem c10_counterexample_flag_collision :
    getSharedLibraryPathsAsArguments envRpathCollides [] "" "" "" = ["-L./lib"] ∧
    (getSharedLibraryPathsAsArguments envRpathCollides [] "" "" "").length = 1 := by
  exact ⟨rfl, rfl⟩

/-- **C10 (amended).** With an empty download-root path the root defaults to
the literal `./lib`; when the resolved runtime-path flag differs from the
resolved library-search-path flag, the vector begins with the
library-search-path flag and then the runtime-path flag applied to `./lib`;
when the two resolved flags coincide, the duplicate is deduplicated and the
vector begins with the single entry flag + `./lib`. -/
theorem c10_amended_download_root_defaults (env : Env)
    (libraries : List CompileChildLibrary) (toolchainPath dirPath : String) :
    (jsOr env.compiler.rpathFlag env.defaultRpathFlag ≠ jsOr env.compiler.libpathFlag "-L" →
      ∃ rest, getSharedLibraryPathsAsArguments env libraries "" toolchainPath dirPath =
        (jsOr env.compiler.libpathFlag "-L" ++ "./lib") ::
          (jsOr env.compiler.rpathFlag env.defaultRpathFlag ++ "./lib") :: rest) ∧
    (jsOr env.compiler.rpathFlag env.defaultRpathFlag = jsOr env.compiler.libpathFlag "-L" →
      ∃ rest, getSharedLibraryPathsAsArguments env libraries "" toolchainPath dirPath =
        (jsOr env.compiler.libpathFlag "-L" ++ "./lib") :: rest) := by
  rw [getSharedLibraryPathsAsArguments_eq_uniq_groups]
  simp only [sharedLibraryPathGroups]
  simp only [uniq, List.cons_append, List.singleton_append, List.append_assoc,
    List.nil_append]
  constructor
  · intro hne
    rw [uniqAux, if_neg (List.not_mem_nil _), uniqAux,
      if_neg (fun hc => hne (string_append_right_cancel (List.mem_singleton.mp hc)))]
    exact ⟨_, rfl⟩
  · intro heq
    rw [uniqAux, if_neg (List.not_mem_nil _), uniqAux,
      if_pos (List.mem_singleton.mpr (by rw [heq]))]
    exact ⟨_, rfl⟩

/-- Witness for C10 (amended) with the default configuration: the rpath flag
resolves to `-Wl,-rpath,`, which differs from `-L`, so the vector begins
with `-L./lib` then `-Wl,-rpath,./lib`. -/
theorem c10_amended_download_root_defaults_witness :
    ∃ rest, getSharedLibraryPathsAsArguments envUnresolved [] "" "" "" =
      (jsOr envUnresolved.compiler.libpathFlag "-L" ++ "./lib") ::
        (jsOr envUnresolved.compiler.rpathFlag envUnresolved.defaultRpathFlag ++ "./lib") ::
          rest :=
  (c10_amended_download_root_defaults envUnresolved [] "" "").1 (by decide)

/-- A concrete execution primitive whose captured streams mention the
absolute input path (used for the end-to-end example of spec §8). -/
def execExample : SpawnRecord → ExecResult :=
  fun _ => { code := 1, stdout := "/tmp/work/prog.f90:3:10: Error: x", stderr := "see /tmp/work/prog.f90" }

/-- **C5.** `runCompiler` hands the execution primitive options whose
working directory is the directory containing the input file; the returned
outcome carries the raw exit status and the original input filename
unchanged, and both streams are rewritten by replacing every occurrence of
the input path with `"./" ++ basename`.  Concretely, for input
`/tmp/work/prog.f90` the working directory is `/tmp/work` and the
diagnostics mention `./prog.f90`. -/
theorem c5_runCompiler_cwd_and_rewrite (env : Env) (execFn : SpawnRecord → ExecResult)
    (compiler : String) (options : List String) (inputFilename : String)
    (execOptions : Option ExecutionOptions) :
    (spawnOf env compiler options inputFilename execOptions).execOptions.customCwd =
      some (dirname inputFilename) ∧
    (runCompiler env execFn compiler options inputFilename execOptions).code =
      (execFn (spawnOf env compiler options inputFilename execOptions)).code ∧
    (runCompiler env execFn compiler options inputFilename execOptions).stdout =
      replaceAll (execFn (spawnOf env compiler options inputFilename execOptions)).stdout
        inputFilename ("./" ++ basename inputFilename) ∧
    (runCompiler env execFn compiler options inputFilename execOptions).stderr =
      replaceAll (execFn (spawnOf env compiler options inputFilename execOptions)).stderr
        inputFilename ("./" ++ basename inputFilename) ∧
    (runCompiler env execFn compiler options inputFilename execOptions).inputFilename =
      inputFilename ∧
    (spawnOf envUnresolved "gfortran" [] "/tmp/work/prog.f90" none).execOptions.customCwd =
      some "/tmp/work" ∧
    (runCompiler envUnresolved execExample "gfortran" [] "/tmp/work/prog.f90" none).stdout =
      "./prog.f90:3:10: Error: x" ∧
    (runCompiler envUnresolved execExample "gfortran" [] "/tmp/work/prog.f90" none).stderr =
      "see ./prog.f90" ∧
    (runCompiler envUnresolved execExample "gfortran" [] "/tmp/work/prog.f90" none).code = 1 := by
  refine ⟨rfl, rfl, rfl, rfl, rfl, ?_, ?_, ?_, rfl⟩ <;> decide

/-- **C9.** A non-zero child-process exit status does not alter the outcome:
`runCompiler` is total on every exec result, the exit code reaches the
outcome unchanged, and the stream rewriting depends only on the captured
streams and the input path, never on the exit status. -/
theorem c9_nonzero_exit_transparent (env : Env) (execFn : SpawnRecord → ExecResult)
    (compiler : String) (options : List String) (inputFilename : String)
    (execOptions : Option ExecutionOptions) (result result' : ExecResult) :
    (runCompiler env execFn compiler options inputFilename execOptions).code =
      (execFn (spawnOf env compiler options inputFilename execOptions)).code ∧
    (processResult result inputFilename).code = result.code ∧
    (result'.stdout = result.stdout → result'.stderr = result.stderr →
      (processResult result' inputFilename).stdout =
        (processResult result inputFilename).stdout ∧
      (processResult result' inputFilename).stderr =
        (processResult result inputFilename).stderr) := by
  refine ⟨rfl, rfl, fun hso hse => ?_⟩
  rw [processResult, processResult]
  rw [hso, hse]
  exact ⟨rfl, rfl⟩

/-- Witness for C9 at a concrete input: two exec results with identical
streams but exit statuses `0` and `2` are rewritten identically. -/
theorem c9_nonzero_exit_transparent_witness :
    (processResult ⟨2, "out", "err"⟩ "/tmp/work/prog.f90").stdout =
      (processResult ⟨0, "out", "err"⟩ "/tmp/work/prog.f90").stdout ∧
    (processResult ⟨2, "out", "err"⟩ "/tmp/work/prog.f90").stderr =
      (processResult ⟨0, "out", "err"⟩ "/tmp/work/prog.f90").stderr :=
  (c9_nonzero_exit_transparent envUnresolved execExample "gfortran" [] "/tmp/work/prog.f90"
    none ⟨0, "out", "err"⟩ ⟨2, "out", "err"⟩).2.2 rfl rfl

/-! ## C6, C7, C8: include and shared-library argument structure -/

/-- **C6.** For a library whose resolved metadata has packaged headers, the
include arguments contributed by that library are exactly its own
include-path arguments followed immediately by the module-path argument
`-I` + `join(dirPath, id, "mod")` and the include argument on the sibling
`join(dirPath, id, "include")`, all placed between the arguments of the
preceding and following libraries. -/
theorem c6_packaged_headers_mod_and_include (env : Env) (dirPath : String)
    (pre post : List CompileChildLibrary) (lib : CompileChildLibrary) (v : VersionInfo)
    (hfind : env.findLibVersion lib = some v) (hph : v.packagedheaders = true) :
    getIncludeArguments env (pre ++ lib :: post) dirPath =
      getIncludeArguments env pre dirPath ++
        (v.path.map (fun p => jsOr env.compiler.includeFlag "-I" ++ p) ++
          ["-I" ++ pathJoin3 dirPath lib.id "mod",
            jsOr env.compiler.includeFlag "-I" ++ pathJoin3 dirPath lib.id "include"]) ++
        getIncludeArguments env post dirPath := by
  rw [getIncludeArguments, List.flatMap_append, List.flatMap_cons]
  rw [getIncludeArguments, getIncludeArguments, List.append_assoc]
  congr 1
  congr 1
  rw [includeArgsFor, hfind]
  simp only [hph, if_true]

/-- Metadata with one include path and packaged headers. -/
def vPackaged : VersionInfo := ⟨["/inc1"], [], true, []⟩

/-- Every version resolves to `vPackaged`. -/
def envPackaged : Env :=
  { envUnresolved with findLibVersion := fun _ => some vPackaged }

/-- Witness for C6 at a concrete input. -/
theorem c6_packaged_headers_mod_and_include_witness :
    getIncludeArguments envPackaged [libX] "/app/dl" =
      getIncludeArguments envPackaged [] "/app/dl" ++
        (vPackaged.path.map (fun p => jsOr envPackaged.compiler.includeFlag "-I" ++ p) ++
          ["-I" ++ pathJoin3 "/app/dl" libX.id "mod",
            jsOr envPackaged.compiler.includeFlag "-I" ++ pathJoin3 "/app/dl" libX.id "include"]) ++
        getIncludeArguments envPackaged [] "/app/dl" :=
  c6_packaged_headers_mod_and_include envPackaged "/app/dl" [] [] libX vPackaged rfl rfl

/-- **C7.** When the toolchain configuration omits an include flag, every
argument produced by `getIncludeArguments` uses the prefix `-I`; when a
custom include flag is configured, the arguments for a library's own
include paths (the first `|includePaths|` of its contribution) use that
custom flag instead. -/
theorem c7_include_flag_defaulting (env : Env) (libraries : List CompileChildLibrary)
    (dirPath : String) :
    (env.compiler.includeFlag = "" →
      ∀ a ∈ getIncludeArguments env libraries dirPath, ∃ rest, a = "-I" ++ rest) ∧
    (∀ lib v, env.compiler.includeFlag ≠ "" → env.findLibVersion lib = some v →
      (includeArgsFor env dirPath lib).take v.path.length =
        v.path.map (fun p => env.compiler.includeFlag ++ p)) := by
  constructor
  · intro hflag a ha
    rw [getIncludeArguments] at ha
    obtain ⟨lib, -, ha⟩ := List.mem_flatMap.mp ha
    rcases hv : env.findLibVersion lib with - | v
    · rw [includeArgsFor, hv] at ha
      exact absurd ha (List.not_mem_nil a)
    · rcases hph : v.packagedheaders with - | -
      · have hred : includeArgsFor env dirPath lib = v.path.map (fun p => "-I" ++ p) := by
          rw [includeArgsFor, hv]
          simp [hph, hflag, jsOr]
        rw [hred] at ha
        obtain ⟨p, -, rfl⟩ := List.mem_map.mp ha
        exact ⟨p, rfl⟩
      · have hred : includeArgsFor env dirPath lib =
            v.path.map (fun p => "-I" ++ p) ++
              ["-I" ++ pathJoin3 dirPath lib.id "mod",
                "-I" ++ pathJoin3 dirPath lib.id "include"] := by
          rw [includeArgsFor, hv]
          simp [hph, hflag, jsOr]
        rw [hred] at ha
        rcases List.mem_append.mp ha with hin | hin
        · obtain ⟨p, -, rfl⟩ := List.mem_map.mp hin
          exact ⟨p, rfl⟩
        · rcases List.mem_cons.mp hin with rfl | hin
          · exact ⟨_, rfl⟩
          · rcases List.mem_singleton.mp hin with rfl
            exact ⟨_, rfl⟩
  · intro lib v hflag hv
    rcases hph : v.packagedheaders with - | -
    · have hred : includeArgsFor env dirPath lib =
          v.path.map (fun p => env.compiler.includeFlag ++ p) := by
        rw [includeArgsFor, hv]
        simp [hph, hflag, jsOr]
      rw [hred, show v.path.length = (v.path.map (fun p => env.compiler.includeFlag ++ p)).length
        from (List.length_map v.path _).symm]
      exact List.take_length _
    · have hred : includeArgsFor env dirPath lib =
          v.path.map (fun p => env.compiler.includeFlag ++ p) ++
            ["-I" ++ pathJoin3 dirPath lib.id "mod",
              env.compiler.includeFlag ++ pathJoin3 dirPath lib.id "include"] := by
        rw [includeArgsFor, hv]
        simp [hph, hflag, jsOr]
      rw [hred, show v.path.length = (v.path.map (fun p => env.compiler.includeFlag ++ p)).length
        from (List.length_map v.path _).symm]
      exact List.take_left _ _

/-- A toolchain configuration with a custom include flag `-J`. -/
def envCustomInclude : Env :=
  { envPackaged with
    compiler := { includeFlag := "-J", rpathFlag := "", libpathFlag := "", libPath := [] } }

/-- Witness for C7 at concrete inputs: with the flag omitted, the single
library's arguments all start with `-I`; with `-J` configured, the
include-path portion of its contribution uses `-J`. -/
theorem c7_include_flag_defaulting_witness :
    (∃ rest, "-I/inc1" = "-I" ++ rest) ∧
    (includeArgsFor envCustomInclude "/app/dl" libX).take vPackaged.path.length =
      vPackaged.path.map (fun p => envCustomInclude.compiler.includeFlag ++ p) :=
  ⟨(c7_include_flag_defaulting envPackaged [libX] "/app/dl").1 rfl "-I/inc1" (by decide),
    (c7_include_flag_defaulting envCustomInclude [libX] "/app/dl").2 libX vPackaged
      (by decide) rfl⟩

/-- **C8.** For a resolved library, the entries `getSharedLibraryPaths`
contributes for it are its own `libpath` entries, followed by the
synthesized `join(dirPath, id, "lib")` exactly when a build-environment
setup exists, that setup does not extract all artifacts to a common root,
and a (JS-truthy) download directory is given; in each of the three
remaining cases only the library's own `libpath` entries appear. -/
theorem c8_synthesized_download_lib_path (env : Env) (dirPath : String)
    (pre post : List CompileChildLibrary) (lib : CompileChildLibrary) (v : VersionInfo)
    (hfind : env.findLibVersion lib = some v) :
    (∀ b, env.buildenvsetup = some b → b.extractAllToRoot = false → dirPath ≠ "" →
      getSharedLibraryPaths env (pre ++ lib :: post) dirPath =
        getSharedLibraryPaths env pre dirPath ++
          (v.libpath ++ [pathJoin3 dirPath lib.id "lib"]).map Sum.inl ++
          getSharedLibraryPaths env post dirPath) ∧
    (env.buildenvsetup = none →
      getSharedLibraryPaths env (pre ++ lib :: post) dirPath =
        getSharedLibraryPaths env pre dirPath ++ v.libpath.map Sum.inl ++
          getSharedLibraryPaths env post dirPath) ∧
    (∀ b, env.buildenvsetup = some b → b.extractAllToRoot = true →
      getSharedLibraryPaths env (pre ++ lib :: post) dirPath =
        getSharedLibraryPaths env pre dirPath ++ v.libpath.map Sum.inl ++
          getSharedLibraryPaths env post dirPath) ∧
    (dirPath = "" →
      getSharedLibraryPaths env (pre ++ lib :: post) dirPath =
        getSharedLibraryPaths env pre dirPath ++ v.libpath.map Sum.inl ++
          getSharedLibraryPaths env post dirPath) := by
  have hsplit : ∀ mid : List String,
      sharedPathsEntryFor env dirPath lib = Sum.inl mid →
      getSharedLibraryPaths env (pre ++ lib :: post) dirPath =
        getSharedLibraryPaths env pre dirPath ++ mid.map Sum.inl ++
          getSharedLibraryPaths env post dirPath := by
    intro mid hmid
    rw [getSharedLibraryPaths, List.map_append, jsFlat_append, List.map_cons, hmid, jsFlat]
    rw [getSharedLibraryPaths, getSharedLibraryPaths, List.append_assoc]
  refine ⟨?_, ?_, ?_, ?_⟩
  · intro b hb hroot hdir
    refine hsplit _ ?_
    rw [sharedPathsEntryFor, hfind]
    simp [hb, hroot, hdir]
  · intro hb
    refine hsplit _ ?_
    rw [sharedPathsEntryFor, hfind, hb]
  · intro b hb hroot
    refine hsplit _ ?_
    rw [sharedPathsEntryFor, hfind]
    simp [hb, hroot]
  · intro hdir
    refine hsplit _ ?_
    rw [sharedPathsEntryFor, hfind]
    rcases env.buildenvsetup with - | b
    · rfl
    · simp [hdir]

/-- Metadata with one library path. -/
def vShared : VersionInfo := ⟨[], ["/sl1"], false, []⟩

/-- Every version resolves to `vShared`; a build-environment setup exists
and does not extract all artifacts to a common root. -/
def envBuildenv : Env :=
  { envUnresolved with
    findLibVersion := fun _ => some vShared
    buildenvsetup := some ⟨false⟩ }

/-- Witness for C8 at a concrete input: the synthesized
`/app/dl/mylib/lib` entry is appended after the library's own `libpath`. -/
theorem c8_synthesized_download_lib_path_witness :
    getSharedLibraryPaths envBuildenv [libX] "/app/dl" =
      getSharedLibraryPaths envBuildenv [] "/app/dl" ++
        (vShared.libpath ++ [pathJoin3 "/app/dl" libX.id "lib"]).map Sum.inl ++
        getSharedLibraryPaths envBuildenv [] "/app/dl" :=
  (c8_synthesized_download_lib_path envBuildenv "/app/dl" [] [] libX vShared rfl).1
    ⟨false⟩ rfl rfl (by decide)

end FortranSpec
